import Mathlib

/-!
Shallow embedding of the `serde_prom` Prometheus text serializer
(`src/ser.rs`) and proofs about it.

The embedding mirrors the source closely:

* `MetricType`, `MetricDescriptor` — the metadata data model (ser.rs 12–34).
* `Config` — the immutable part of `PrometheusSerializer`: the namespace
  option and the metadata table (ser.rs 43, 49).  The Rust field
  `namespace` is called `nspace` here because the original name is a
  keyword in Lean.
* `SerState` — the mutable part of `PrometheusSerializer`: the output
  sink (as the list of chunks passed to `write_all`, plus a failure
  budget modelling a sink that starts failing after a given number of
  writes), the current path `current_prefix` (called `cur_path` here),
  and `seen_metrics` (ser.rs 38–45).  Two extra fields,
  `headers_emitted` and `samples_emitted`, are ghost observers with no
  counterpart in the source: they record, without affecting control flow
  or output, each execution of the header-writing branch
  (ser.rs 101–120) and each completed sample line (ser.rs 122–142).
* `escape_label_value`, `write_metric`, the `Serializer` dispatch
  (`serializeValue` / `serializeFields`) and `to_prometheus_text` are
  direct transcriptions of the corresponding Rust items.
-/

/-- Closed metric-type enumeration (ser.rs 12–21). -/
inductive MetricType where
  | untyped
  | counter
  | gauge
  | histogram
  | summary
deriving DecidableEq, Repr

/-- Lowercase rendering used in `# TYPE` lines; models strum's
`serialize_all = "snake_case"` `AsRefStr` derivation (ser.rs 13). -/
def MetricType.asRef : MetricType → String
  | .untyped => "untyped"
  | .counter => "counter"
  | .gauge => "gauge"
  | .histogram => "histogram"
  | .summary => "summary"

/-- Per-metric metadata (ser.rs 24–34). -/
structure MetricDescriptor where
  metric_type : MetricType := .untyped
  help : String := ""
  labels : List (String × String) := []
  rename : Option String := none
deriving DecidableEq, Repr

/-- The `MetricDescriptor::default()` used when no entry matches (ser.rs 47, 67). -/
def default_desc : MetricDescriptor := {}

/-- Lookup in the metadata table; models `HashMap::get` on a table with
unique keys (first match wins). -/
def lookupMeta : List (String × MetricDescriptor) → String → Option MetricDescriptor
  | [], _ => none
  | (k, d) :: rest, n => if k = n then some d else lookupMeta rest n

/-- Immutable configuration of one encode call: the optional namespace
(ser.rs 49; Lean forbids the identifier used in the source, hence
`nspace`) and the metadata table (ser.rs 43). -/
structure Config where
  nspace : Option String
  metadata : List (String × MetricDescriptor)

/-- Membership test on a list of strings; models `HashSet::contains`
for `seen_metrics` (ser.rs 101). -/
def memStr : List String → String → Bool
  | [], _ => false
  | x :: rest, n => if x = n then true else memStr rest n

/-- Mutable serializer state (ser.rs 37–50) plus the writer state and two
ghost observers (see the module docstring). -/
structure SerState where
  /-- Chunks written so far; one entry per successful `write_all` call. -/
  output : List String
  /-- Writer failure model: `none` is an infallible sink (the `Vec` used by
  `to_prometheus_text`); `some n` is a sink whose first `n` writes succeed
  and whose subsequent writes fail. -/
  budget : Option Nat
  /-- The Rust field `current_prefix` (ser.rs 41). -/
  cur_path : String
  /-- Names a header block has been written for (ser.rs 45). -/
  seen_metrics : List String
  /-- Ghost: the full (namespaced) metric name recorded at each execution of
  the header-writing branch, in order. -/
  headers_emitted : List String
  /-- Ghost: (full metric name, value text) recorded at each completed
  sample line, in order. -/
  samples_emitted : List (String × String)
deriving DecidableEq, Repr

/-- The error type; only the write-failure case is reachable in this
model (error.rs 7–12). -/
inductive PrometheusError where
  | write
deriving DecidableEq, Repr

/-- One `write_all` call (ser.rs uses `self.output.write_all`): appends the
chunk on success, fails when the budget is exhausted. -/
def writeAll (s : String) (st : SerState) : SerState × Option PrometheusError :=
  match st.budget with
  | none => ({ st with output := st.output ++ [s] }, none)
  | some 0 => (st, some .write)
  | some (n + 1) => ({ st with output := st.output ++ [s], budget := some n }, none)

/-- Sequencing of `write_all` calls with `?`-propagation of a previous
failure. -/
def thenWrite (r : SerState × Option PrometheusError) (s : String) :
    SerState × Option PrometheusError :=
  match r with
  | (st, none) => writeAll s st
  | (st, some e) => (st, some e)

/-- Utility to escape label values (ser.rs 72–84), on character lists:
one left-to-right pass replacing `\` by `\\` and `"` by `\"`. -/
def escapeChars : List Char → List Char
  | [] => []
  | c :: rest =>
      (if c = '\\' then ['\\', '\\'] else if c = '"' then ['\\', '"'] else [c])
        ++ escapeChars rest

/-- `PrometheusSerializer::escape_label_value` (ser.rs 73–84). -/
def escape_label_value (val : String) : String :=
  ⟨escapeChars val.data⟩

/-- The namespaced metric name (ser.rs 89–93):
`{ns}_{metric_name}` when a namespace is set, the bare name otherwise. -/
def fullMetricName (cfg : Config) (metric_name : String) : String :=
  match cfg.nspace with
  | some ns => ns ++ "_" ++ metric_name
  | none => metric_name

/-- Descriptor resolution (ser.rs 94–98): bare name first, then — only when
a namespace is set — the namespaced name, then the default descriptor. -/
def resolveDescriptor (cfg : Config) (metric_name : String) : MetricDescriptor :=
  match lookupMeta cfg.metadata metric_name with
  | some d => d
  | none =>
      match cfg.nspace.bind (fun _ => lookupMeta cfg.metadata (fullMetricName cfg metric_name)) with
      | some d => d
      | none => default_desc

/-- The header block writes (ser.rs 102–118): `# HELP` line then `# TYPE`
line, one `write_all` per chunk. -/
def writeHeaderBlock (full helpShown typeShown : String) (st : SerState) :
    SerState × Option PrometheusError :=
  thenWrite (thenWrite (thenWrite (thenWrite (thenWrite (thenWrite (thenWrite (thenWrite
    (thenWrite (writeAll "# HELP " st) full) " ") helpShown) "\n")
    "# TYPE ") full) " ") typeShown) "\n"

/-- The label loop (ser.rs 126–135): comma before every pair but the
first, then `key`, `="`, escaped value, `"`. -/
def writeLabels (labels : List (String × String)) (isFirst : Bool)
    (r : SerState × Option PrometheusError) : SerState × Option PrometheusError :=
  match labels with
  | [] => r
  | (k, v) :: rest =>
      let r := if isFirst then r else thenWrite r ","
      let r := thenWrite (thenWrite (thenWrite (thenWrite r k) "=\"") (escape_label_value v)) "\""
      writeLabels rest false r

/-- The sample line writes (ser.rs 122–142): name, optional braced label
list, space, value, newline. -/
def writeSampleLine (full value : String) (labels : List (String × String))
    (st : SerState) : SerState × Option PrometheusError :=
  let r := writeAll full st
  let r :=
    if labels.isEmpty then r
    else thenWrite (writeLabels labels true (thenWrite r "\x7b")) "\x7d"
  thenWrite (thenWrite (thenWrite r " ") value) "\n"

/-- First half of `PrometheusSerializer::write_metric` (ser.rs 100–120):
write `# HELP` / `# TYPE` once per bare metric name, inserting into
`seen_metrics` only after the header writes succeed, as in the source.
The ghost field `headers_emitted` is appended at the same point. -/
def record_header (cfg : Config) (st : SerState) : SerState × Option PrometheusError :=
  let metric_name := st.cur_path
  let full_metric_name := fullMetricName cfg metric_name
  let desc := resolveDescriptor cfg metric_name
  if memStr st.seen_metrics metric_name then (st, none)
  else
    match writeHeaderBlock full_metric_name
        (if desc.help = "" then "?" else desc.help)
        (MetricType.asRef desc.metric_type) st with
    | (st2, none) =>
        ({ st2 with
            seen_metrics := st2.seen_metrics ++ [metric_name],
            headers_emitted := st2.headers_emitted ++ [full_metric_name] }, none)
    | (st2, some e) => (st2, some e)

/-- Second half of `PrometheusSerializer::write_metric` (ser.rs 122–142):
the sample line.  The source computes `full_metric_name` and `desc` once,
before the header block; recomputing them here from `st2.cur_path` is
faithful because the header writes never touch `current_prefix`
(`record_header_cur` below).  The ghost field `samples_emitted` is
appended once the whole line has been written. -/
def record_sample (cfg : Config) (value : String) (st2 : SerState) :
    SerState × Option PrometheusError :=
  let full_metric_name := fullMetricName cfg st2.cur_path
  let desc := resolveDescriptor cfg st2.cur_path
  match writeSampleLine full_metric_name value desc.labels st2 with
  | (st3, none) =>
      ({ st3 with
          samples_emitted := st3.samples_emitted ++ [(full_metric_name, value)] }, none)
  | (st3, some e) => (st3, some e)

/-- `PrometheusSerializer::write_metric` (ser.rs 87–144): the header block
on first occurrence, then the sample line, with `?`-propagation of write
failures between the two halves. -/
def write_metric (cfg : Config) (value : String) (st : SerState) :
    SerState × Option PrometheusError :=
  match record_header cfg st with
  | (st2, some e) => (st2, some e)
  | (st2, none) => record_sample cfg value st2

mutual
/-- The serde value model (spec §9 design note): a closed set of tagged
value kinds covering the `Serializer` entry points of ser.rs 180–350. -/
inductive Value where
  | vBool (b : Bool)
  | vU64 (n : Nat)
  | vI64 (i : Int)
  | vStr (s : String)
  | vChar (c : Char)
  | vNone
  | vSome (v : Value)
  | vUnit
  | vNewtypeStruct (v : Value)
  | vNewtypeVariant (v : Value)
  | vSeq (elems : ValueList)
  | vTuple (elems : ValueList)
  | vMap (entries : ValueList)
  | vStruct (fields : FieldList)
  | vStructVariant (fields : FieldList)

/-- Anonymous positional elements (sequence / tuple / map payloads). -/
inductive ValueList where
  | nil
  | cons (v : Value) (rest : ValueList)

/-- Named fields of a struct, in declaration order. -/
inductive FieldList where
  | nil
  | cons (name : String) (v : Value) (rest : FieldList)
end

/-- `SerializeSeq for &mut PrometheusSerializer` (ser.rs 352–367): serde
calls `serialize_element` once per element, and the implementation ignores
the element and returns `Ok(())`; `end` returns `Ok(())`. -/
def serializeSeqElements (cfg : Config) : ValueList → SerState → SerState × Option PrometheusError
  | .nil, st => (st, none)
  | .cons _ rest, st => serializeSeqElements cfg rest st

mutual
/-- The `Serializer` dispatch (ser.rs 198–349) composed with serde's
driving of derived `Serialize` impls: scalars call `write_metric` with the
value's decimal text, strings/chars/bytes/unit/None and all
variant-with-payload shapes are skipped, `Some`/newtype structs recurse at
the same path, sequences/tuples/maps skip their contents, and structs
recurse field-wise through `SerializeStruct::serialize_field`. -/
def serializeValue (cfg : Config) : Value → SerState → SerState × Option PrometheusError
  | .vBool b, st => write_metric cfg (if b then "1" else "0") st
  | .vU64 n, st => write_metric cfg (Nat.repr n) st
  | .vI64 i, st => write_metric cfg (toString i) st
  | .vStr _, st => (st, none)
  | .vChar _, st => (st, none)
  | .vNone, st => (st, none)
  | .vSome v, st => serializeValue cfg v st
  | .vUnit, st => (st, none)
  | .vNewtypeStruct v, st => serializeValue cfg v st
  | .vNewtypeVariant _, st => (st, none)
  | .vSeq elems, st => serializeSeqElements cfg elems st
  | .vTuple _, st => (st, none)
  | .vMap _, st => (st, none)
  | .vStruct fields, st => serializeFields cfg fields st
  | .vStructVariant _, st => (st, none)

/-- `SerializeStruct::serialize_field` iterated over the fields
(ser.rs 443–456): save the prefix, extend it (`_`-separated, or set it
when empty), serialize the value with `?`-propagation — note the Rust
`?` on line 453 returns before the restore on line 454 — and restore the
prefix before the next field. -/
def serializeFields (cfg : Config) : FieldList → SerState → SerState × Option PrometheusError
  | .nil, st => (st, none)
  | .cons name v rest, st =>
      let old := st.cur_path
      let extended := if st.cur_path = "" then name else st.cur_path ++ "_" ++ name
      match serializeValue cfg v { st with cur_path := extended } with
      | (st2, some e) => (st2, some e)
      | (st2, none) => serializeFields cfg rest { st2 with cur_path := old }
end

/-- The freshly constructed serializer state of `PrometheusSerializer::new`
(ser.rs 57–70) over the infallible `Vec` sink of `to_prometheus_text`. -/
def initState : SerState :=
  { output := [], budget := none, cur_path := "", seen_metrics := [],
    headers_emitted := [], samples_emitted := [] }

/-- One encode call from the initial state (infallible sink). -/
def runEncode (cfg : Config) (v : Value) : SerState × Option PrometheusError :=
  serializeValue cfg v initState

/-- `to_prometheus_text` (ser.rs 152–161): serialize into a `Vec` and
return the accumulated text. -/
def to_prometheus_text (cfg : Config) (v : Value) : Except PrometheusError String :=
  match runEncode cfg v with
  | (st, none) => .ok (String.join st.output)
  | (_, some e) => .error e

/-- `write_prometheus_text` (ser.rs 169–178) against a caller-provided
sink whose failure behavior is given by `failAfter`; returns the final
serializer state together with the outcome. -/
def write_prometheus_text (cfg : Config) (v : Value) (failAfter : Option Nat) :
    SerState × Option PrometheusError :=
  serializeValue cfg v { initState with budget := failAfter }

/-- State with extra output chunks appended; used to describe the effect
of successful writes. -/
def addChunks (st : SerState) (ch : List String) : SerState :=
  { st with output := st.output ++ ch }

/-- The chunk sequence of one header block, as written by
`writeHeaderBlock`. -/
def headerChunks (full helpShown typeShown : String) : List String :=
  ["# HELP ", full, " ", helpShown, "\n", "# TYPE ", full, " ", typeShown, "\n"]

/-- The chunk sequence of the label list, as written by `writeLabels`. -/
def labelChunks : List (String × String) → Bool → List String
  | [], _ => []
  | (k, v) :: rest, isFirst =>
      (if isFirst then [] else [","]) ++ [k, "=\"", escape_label_value v, "\""]
        ++ labelChunks rest false

/-- The chunk sequence of one sample line, as written by
`writeSampleLine`. -/
def sampleChunks (full value : String) (labels : List (String × String)) : List String :=
  [full] ++ (if labels.isEmpty then [] else ["\x7b"] ++ labelChunks labels true ++ ["\x7d"])
    ++ [" ", value, "\n"]

/-- Number of occurrences of a string in a list. -/
def countOcc : List String → String → Nat
  | [], _ => 0
  | x :: rest, n => (if x = n then 1 else 0) + countOcc rest n

/-- Invariant tying the ghost header record to `seen_metrics`: the header
block for the namespaced form of a bare name has been emitted exactly once
if the bare name is in `seen_metrics`, and never otherwise. -/
def TraceInv (cfg : Config) (st : SerState) : Prop :=
  ∀ n, countOcc st.headers_emitted (fullMetricName cfg n) =
    if memStr st.seen_metrics n then 1 else 0

/-- Modelled from the spec: the inverse unescaping rule for label values —
`\\` decodes to a backslash and `\"` to a double quote, every other
character is passed through unchanged. -/
def unescapeChars : List Char → List Char
  | [] => []
  | [c] => [c]
  | c1 :: c2 :: rest =>
      if c1 = '\\' ∧ (c2 = '\\' ∨ c2 = '"') then c2 :: unescapeChars rest
      else c1 :: unescapeChars (c2 :: rest)

/-- Modelled from the spec: string-level inverse of `escape_label_value`. -/
def unescape_label_value (s : String) : String :=
  ⟨unescapeChars s.data⟩

theorem addChunks_nil (st : SerState) : addChunks st [] = st := by
  simp [addChunks]

theorem writeAll_none (s : String) (st : SerState) (h : st.budget = none) :
    writeAll s st = (addChunks st [s], none) := by
  simp [writeAll, addChunks, h]

theorem thenWrite_chunks (st : SerState) (ch : List String) (s : String)
    (h : st.budget = none) :
    thenWrite (addChunks st ch, none) s = (addChunks st (ch ++ [s]), none) := by
  simp [thenWrite, writeAll, addChunks, h]

theorem writeHeaderBlock_none (f hs ts : String) (st : SerState) (h : st.budget = none) :
    writeHeaderBlock f hs ts st = (addChunks st (headerChunks f hs ts), none) := by
  simp [writeHeaderBlock, writeAll_none, thenWrite_chunks, h, headerChunks]

theorem writeLabels_none (labels : List (String × String)) (isFirst : Bool)
    (st : SerState) (ch : List String) (h : st.budget = none) :
    writeLabels labels isFirst (addChunks st ch, none) =
      (addChunks st (ch ++ labelChunks labels isFirst), none) := by
  induction labels generalizing isFirst ch with
  | nil => simp [writeLabels, labelChunks]
  | cons kv rest ih =>
      obtain ⟨k, v⟩ := kv
      cases isFirst <;>
        simp [writeLabels, labelChunks, thenWrite_chunks, h, ih]

theorem writeSampleLine_none (f v : String) (labels : List (String × String))
    (st : SerState) (h : st.budget = none) :
    writeSampleLine f v labels st = (addChunks st (sampleChunks f v labels), none) := by
  cases labels with
  | nil =>
      simp [writeSampleLine, sampleChunks, writeAll_none, thenWrite_chunks, h]
  | cons kv rest =>
      simp only [writeSampleLine, sampleChunks, List.isEmpty_cons, if_neg Bool.false_ne_true]
      rw [writeAll_none _ _ h]
      simp only [thenWrite_chunks _ _ _ h]
      rw [writeLabels_none _ _ _ _ h]
      simp [thenWrite_chunks, h, List.append_assoc]

theorem write_metric_none (cfg : Config) (v : String) (st : SerState)
    (h : st.budget = none) :
    write_metric cfg v st =
      ({ st with
          output := st.output ++
            (if memStr st.seen_metrics st.cur_path then []
             else headerChunks (fullMetricName cfg st.cur_path)
                (if (resolveDescriptor cfg st.cur_path).help = "" then "?"
                 else (resolveDescriptor cfg st.cur_path).help)
                (MetricType.asRef (resolveDescriptor cfg st.cur_path).metric_type)) ++
            sampleChunks (fullMetricName cfg st.cur_path) v
              (resolveDescriptor cfg st.cur_path).labels,
          seen_metrics := st.seen_metrics ++
            (if memStr st.seen_metrics st.cur_path then [] else [st.cur_path]),
          headers_emitted := st.headers_emitted ++
            (if memStr st.seen_metrics st.cur_path then []
             else [fullMetricName cfg st.cur_path]),
          samples_emitted := st.samples_emitted ++
            [(fullMetricName cfg st.cur_path, v)] }, none) := by
  obtain ⟨o, b, c, sm, he, se⟩ := st
  simp only at h
  subst h
  by_cases hm : memStr sm c <;>
    simp [write_metric, record_header, record_sample, hm, writeHeaderBlock_none,
      writeSampleLine_none, addChunks]

theorem countOcc_append (a b : List String) (n : String) :
    countOcc (a ++ b) n = countOcc a n + countOcc b n := by
  induction a with
  | nil => simp [countOcc]
  | cons x rest ih => simp [countOcc, ih]; omega

theorem memStr_append_single (l : List String) (x n : String) :
    memStr (l ++ [x]) n = if x = n then true else memStr l n := by
  induction l with
  | nil => simp [memStr]
  | cons y rest ih =>
      by_cases hx : x = n
      · rw [hx] at ih
        by_cases hy : y = n <;> simp [memStr, hy, hx, ih]
      · by_cases hy : y = n <;> simp [memStr, hy, hx, ih]

theorem fullMetricName_inj (cfg : Config) (a b : String)
    (h : fullMetricName cfg a = fullMetricName cfg b) : a = b := by
  obtain ⟨ns, md⟩ := cfg
  cases ns with
  | none => exact h
  | some s =>
      simp only [fullMetricName] at h
      have h2 : ((s ++ "_") ++ a).data = ((s ++ "_") ++ b).data :=
        congrArg String.data h
      rw [String.data_append, String.data_append] at h2
      have h3 := List.append_cancel_left h2
      obtain ⟨da⟩ := a
      obtain ⟨db⟩ := b
      exact congrArg String.mk h3

theorem write_metric_trace (cfg : Config) (v : String) (st : SerState)
    (h : st.budget = none) (hi : TraceInv cfg st) :
    TraceInv cfg (write_metric cfg v st).1 ∧
      (write_metric cfg v st).1.budget = none ∧ (write_metric cfg v st).2 = none := by
  rw [write_metric_none cfg v st h]
  refine ⟨?_, h, rfl⟩
  intro n
  by_cases hm : memStr st.seen_metrics st.cur_path
  · simpa [hm] using hi n
  · simp only [if_neg hm]
    rw [countOcc_append, memStr_append_single]
    by_cases he : st.cur_path = n
    · rw [he] at hm
      simp [he, countOcc, hi n, hm]
    · have hfn : fullMetricName cfg st.cur_path ≠ fullMetricName cfg n :=
        fun hh => he (fullMetricName_inj cfg _ _ hh)
      simp [he, countOcc, hfn, hi n]

theorem serializeSeqElements_id (cfg : Config) :
    ∀ (l : ValueList) (st : SerState), serializeSeqElements cfg l st = (st, none)
  | .nil, _ => rfl
  | .cons _ rest, st => by
      simpa [serializeSeqElements] using serializeSeqElements_id cfg rest st

mutual
theorem serializeValue_trace (cfg : Config) (v : Value) (st : SerState)
    (h : st.budget = none) (hi : TraceInv cfg st) :
    TraceInv cfg (serializeValue cfg v st).1 ∧
      (serializeValue cfg v st).1.budget = none ∧ (serializeValue cfg v st).2 = none :=
  match v with
  | .vBool b => by
      simpa [serializeValue] using write_metric_trace cfg (if b then "1" else "0") st h hi
  | .vU64 n => by
      simpa [serializeValue] using write_metric_trace cfg (Nat.repr n) st h hi
  | .vI64 i => by
      simpa [serializeValue] using write_metric_trace cfg (toString i) st h hi
  | .vStr _ => by simp [serializeValue]; exact ⟨hi, h⟩
  | .vChar _ => by simp [serializeValue]; exact ⟨hi, h⟩
  | .vNone => by simp [serializeValue]; exact ⟨hi, h⟩
  | .vSome w => by
      simpa [serializeValue] using serializeValue_trace cfg w st h hi
  | .vUnit => by simp [serializeValue]; exact ⟨hi, h⟩
  | .vNewtypeStruct w => by
      simpa [serializeValue] using serializeValue_trace cfg w st h hi
  | .vNewtypeVariant _ => by simp [serializeValue]; exact ⟨hi, h⟩
  | .vSeq elems => by
      simp [serializeValue, serializeSeqElements_id]; exact ⟨hi, h⟩
  | .vTuple _ => by simp [serializeValue]; exact ⟨hi, h⟩
  | .vMap _ => by simp [serializeValue]; exact ⟨hi, h⟩
  | .vStruct fields => by
      simpa [serializeValue] using serializeFields_trace cfg fields st h hi
  | .vStructVariant _ => by simp [serializeValue]; exact ⟨hi, h⟩

theorem serializeFields_trace (cfg : Config) (fs : FieldList) (st : SerState)
    (h : st.budget = none) (hi : TraceInv cfg st) :
    TraceInv cfg (serializeFields cfg fs st).1 ∧
      (serializeFields cfg fs st).1.budget = none ∧ (serializeFields cfg fs st).2 = none :=
  match fs with
  | .nil => by simp [serializeFields]; exact ⟨hi, h⟩
  | .cons name v rest => by
      have h1 := serializeValue_trace cfg v
        { st with cur_path := if st.cur_path = "" then name else st.cur_path ++ "_" ++ name }
        h hi
      rcases hr : serializeValue cfg v
        { st with cur_path := if st.cur_path = "" then name else st.cur_path ++ "_" ++ name }
        with ⟨st2, err⟩
      rw [hr] at h1
      obtain ⟨hi2, hb2, he2⟩ := h1
      simp only at he2
      subst he2
      have h2 := serializeFields_trace cfg rest { st2 with cur_path := st.cur_path } hb2 hi2
      simpa [serializeFields, hr] using h2
end

theorem writeAll_cur (s : String) (st : SerState) :
    (writeAll s st).1.cur_path = st.cur_path := by
  rcases hb : st.budget with _ | n
  · simp [writeAll, hb]
  · cases n <;> simp [writeAll, hb]

theorem thenWrite_cur (r : SerState × Option PrometheusError) (s : String) :
    (thenWrite r s).1.cur_path = r.1.cur_path := by
  rcases r with ⟨st, e⟩
  cases e <;> simp [thenWrite, writeAll_cur]

theorem writeLabels_cur (labels : List (String × String)) (isFirst : Bool)
    (r : SerState × Option PrometheusError) :
    (writeLabels labels isFirst r).1.cur_path = r.1.cur_path := by
  induction labels generalizing isFirst r with
  | nil => simp [writeLabels]
  | cons kv rest ih =>
      obtain ⟨k, v⟩ := kv
      cases isFirst <;> simp [writeLabels, ih, thenWrite_cur]

theorem writeHeaderBlock_cur (f hs ts : String) (st : SerState) :
    (writeHeaderBlock f hs ts st).1.cur_path = st.cur_path := by
  simp [writeHeaderBlock, thenWrite_cur, writeAll_cur]

theorem writeSampleLine_cur (f v : String) (labels : List (String × String))
    (st : SerState) :
    (writeSampleLine f v labels st).1.cur_path = st.cur_path := by
  cases labels <;>
    simp [writeSampleLine, thenWrite_cur, writeLabels_cur, writeAll_cur]

theorem writeHeaderBlock_cur2 (f hs ts : String) (st st2 : SerState)
    (e : Option PrometheusError) (h : writeHeaderBlock f hs ts st = (st2, e)) :
    st2.cur_path = st.cur_path := by
  have h2 := writeHeaderBlock_cur f hs ts st
  rw [h] at h2
  exact h2

theorem writeSampleLine_cur2 (f v : String) (labels : List (String × String))
    (st st3 : SerState) (e : Option PrometheusError)
    (h : writeSampleLine f v labels st = (st3, e)) :
    st3.cur_path = st.cur_path := by
  have h2 := writeSampleLine_cur f v labels st
  rw [h] at h2
  exact h2

theorem record_header_cur (cfg : Config) (st : SerState) :
    (record_header cfg st).1.cur_path = st.cur_path := by
  unfold record_header
  dsimp only
  by_cases hm : memStr st.seen_metrics st.cur_path
  · simp [hm]
  · simp only [if_neg hm]
    split
    · next st2 heq =>
        exact writeHeaderBlock_cur2 _ _ _ st st2 none heq
    · next st2 e heq =>
        exact writeHeaderBlock_cur2 _ _ _ st st2 _ heq

theorem record_sample_cur (cfg : Config) (v : String) (st2 : SerState) :
    (record_sample cfg v st2).1.cur_path = st2.cur_path := by
  unfold record_sample
  dsimp only
  split
  · next st3 heq =>
      exact writeSampleLine_cur2 _ _ _ st2 st3 none heq
  · next st3 e heq =>
      exact writeSampleLine_cur2 _ _ _ st2 st3 _ heq

theorem write_metric_cur (cfg : Config) (v : String) (st : SerState) :
    (write_metric cfg v st).1.cur_path = st.cur_path := by
  unfold write_metric
  split
  · next st2 e heq =>
      have h1 := record_header_cur cfg st
      rw [heq] at h1
      simpa using h1
  · next st2 heq =>
      have h1 := record_header_cur cfg st
      rw [heq] at h1
      simp only at h1
      exact (record_sample_cur cfg v st2).trans h1

mutual
theorem serializeValue_path (cfg : Config) (v : Value) (st : SerState)
    (h : (serializeValue cfg v st).2 = none) :
    (serializeValue cfg v st).1.cur_path = st.cur_path :=
  match v with
  | .vBool b => by simpa [serializeValue] using write_metric_cur cfg (if b then "1" else "0") st
  | .vU64 n => by simpa [serializeValue] using write_metric_cur cfg (Nat.repr n) st
  | .vI64 i => by simpa [serializeValue] using write_metric_cur cfg (toString i) st
  | .vStr _ => by simp [serializeValue]
  | .vChar _ => by simp [serializeValue]
  | .vNone => by simp [serializeValue]
  | .vSome w => by
      simp only [serializeValue] at h ⊢
      exact serializeValue_path cfg w st h
  | .vUnit => by simp [serializeValue]
  | .vNewtypeStruct w => by
      simp only [serializeValue] at h ⊢
      exact serializeValue_path cfg w st h
  | .vNewtypeVariant _ => by simp [serializeValue]
  | .vSeq elems => by simp [serializeValue, serializeSeqElements_id]
  | .vTuple _ => by simp [serializeValue]
  | .vMap _ => by simp [serializeValue]
  | .vStruct fields => by
      simp only [serializeValue] at h ⊢
      exact serializeFields_path cfg fields st h
  | .vStructVariant _ => by simp [serializeValue]

theorem serializeFields_path (cfg : Config) (fs : FieldList) (st : SerState)
    (h : (serializeFields cfg fs st).2 = none) :
    (serializeFields cfg fs st).1.cur_path = st.cur_path :=
  match fs with
  | .nil => by simp [serializeFields]
  | .cons name v rest => by
      rcases hr : serializeValue cfg v
        { st with cur_path := if st.cur_path = "" then name else st.cur_path ++ "_" ++ name }
        with ⟨st2, err⟩
      cases err with
      | some e =>
          rw [serializeFields] at h
          simp only [hr] at h
          simp at h
      | none =>
          rw [serializeFields] at h ⊢
          simp only [hr] at h ⊢
          have h2 := serializeFields_path cfg rest { st2 with cur_path := st.cur_path } h
          simpa using h2
end

theorem unescapeChars_cons (c : Char) (l : List Char) (h : c ≠ '\\') :
    unescapeChars (c :: l) = c :: unescapeChars l := by
  cases l with
  | nil => simp [unescapeChars]
  | cons d ds => simp [unescapeChars, h]

theorem unescapeChars_escapeChars (l : List Char) :
    unescapeChars (escapeChars l) = l := by
  induction l with
  | nil => rfl
  | cons c rest ih =>
      by_cases h1 : c = '\\'
      · subst h1
        simp [escapeChars, unescapeChars, ih]
      · by_cases h2 : c = '"'
        · subst h2
          simp [escapeChars, unescapeChars, h1, ih]
        · rw [escapeChars]
          simp only [if_neg h1, if_neg h2, List.singleton_append]
          rw [unescapeChars_cons c _ h1, ih]

/-- C1 (code_bug evidence): with namespace `my` and a descriptor for `foo`
carrying `rename = some "bar"`, the encoder still publishes the
path-derived name `my_foo` on both the header and the sample line — the
`rename` field of `MetricDescriptor` is never read by `write_metric`, so
the claimed renaming to a namespaced `my_bar` does not happen. -/
theorem c1_rename_ignored :
    to_prometheus_text
        ⟨some "my",
         [("foo",
           { metric_type := .untyped, help := "h", labels := [],
             rename := some "bar" })]⟩
        (.vStruct (.cons "foo" (.vU64 7) .nil)) =
      .ok "# HELP my_foo h\n# TYPE my_foo untyped\nmy_foo 7\n" ∧
    (runEncode
        ⟨some "my",
         [("foo",
           { metric_type := .untyped, help := "h", labels := [],
             rename := some "bar" })]⟩
        (.vStruct (.cons "foo" (.vU64 7) .nil))).1.samples_emitted =
      [("my_foo", "7")] ∧
    ("my_foo" : String) ≠ "my_bar" := by
  refine ⟨rfl, by decide, by decide⟩

/-- C2 counterexample: the escaping function does not replace a newline —
`escape_label_value "\n"` is the unchanged one-character string, not the
two-character sequence `\n`, refuting the claimed newline rule. -/
theorem c2_counterexample :
    escape_label_value "\n" = "\n" ∧ escape_label_value "\n" ≠ "\\n" := by
  refine ⟨by decide, by decide⟩

/-- C2 (amended): the label-value escaping performs a single left-to-right
pass replacing only backslash with `\\` and double quote with `\"`; every
other character — including newline — is passed through unchanged, and
applying the inverse unescaping rule to its output reproduces the original
string exactly. -/
theorem c2_escape_single_pass :
    (∀ s : String, unescape_label_value (escape_label_value s) = s) ∧
    (∀ c : Char, c ≠ '\\' → c ≠ '"' → escape_label_value ⟨[c]⟩ = ⟨[c]⟩) := by
  constructor
  · intro s
    show (⟨unescapeChars (escapeChars s.data)⟩ : String) = s
    rw [unescapeChars_escapeChars]
  · intro c h1 h2
    show (⟨escapeChars [c]⟩ : String) = ⟨[c]⟩
    simp [escapeChars, h1, h2]

/-- C2 witness: the round trip and the pass-through of a newline at
concrete inputs, via `c2_escape_single_pass`. -/
theorem c2_escape_single_pass_witness :
    unescape_label_value (escape_label_value "a\"b\\c\nd") = "a\"b\\c\nd" ∧
    escape_label_value ⟨['\n']⟩ = ⟨['\n']⟩ :=
  ⟨c2_escape_single_pass.1 "a\"b\\c\nd",
   c2_escape_single_pass.2 '\n' (by decide) (by decide)⟩

/-- C3 counterexample: a sequence containing one record with a numeric
field produces no output at all — no header block for the inner metric
name `a` and no sample line — refuting the claim that elements are
recursed into and one header block plus up to N samples appear. -/
theorem c3_counterexample :
    to_prometheus_text ⟨none, []⟩
        (.vSeq (.cons (.vStruct (.cons "a" (.vU64 1) .nil)) .nil)) = .ok "" ∧
    (runEncode ⟨none, []⟩
        (.vSeq (.cons (.vStruct (.cons "a" (.vU64 1) .nil)) .nil))).1.headers_emitted = [] ∧
    (runEncode ⟨none, []⟩
        (.vSeq (.cons (.vStruct (.cons "a" (.vU64 1) .nil)) .nil))).1.samples_emitted = [] := by
  refine ⟨rfl, by decide, by decide⟩

/-- C3 (amended): sequence elements are skipped entirely —
`SerializeSeq::serialize_element` ignores every element, so serializing
any sequence leaves the serializer state unchanged and a top-level
sequence encodes to the empty output. -/
theorem c3_sequences_skipped :
    (∀ (cfg : Config) (elems : ValueList) (st : SerState),
        serializeValue cfg (.vSeq elems) st = (st, none)) ∧
    (∀ (cfg : Config) (elems : ValueList),
        to_prometheus_text cfg (.vSeq elems) = .ok "") := by
  constructor
  · intro cfg elems st
    simp [serializeValue, serializeSeqElements_id]
  · intro cfg elems
    simp [to_prometheus_text, runEncode, serializeValue, serializeSeqElements_id,
      initState, String.join]

/-- C4 (code_bug evidence): the encoder has no call-scoped or common
label inputs — `to_prometheus_text` takes only namespace and metadata —
and the emitted label set is exactly the resolved descriptor's static
labels: with the `my_errors` descriptor of the repository's own test the
sample line carries only `endpoint="login"`, with no level for the
expected common label `app="myapp"`. -/
theorem c4_static_labels_only :
    to_prometheus_text
        ⟨some "my",
         [("my_errors",
           { metric_type := .counter, help := "Total number of errors",
             labels := [("endpoint", "login")], rename := none })]⟩
        (.vStruct (.cons "errors" (.vU64 4) .nil)) =
      .ok "# HELP my_errors Total number of errors\n# TYPE my_errors counter\nmy_errors\x7bendpoint=\"login\"\x7d 4\n" :=
  rfl

/-- C5 counterexample: for a metric whose resolved descriptor has empty
help (no metadata entry), the output still contains a `# HELP` line — the
placeholder `# HELP a ?` — so the header block is not the `# TYPE` line
alone as claimed. -/
theorem c5_counterexample :
    to_prometheus_text ⟨none, []⟩ (.vStruct (.cons "a" (.vU64 1) .nil)) =
      .ok "# HELP a ?\n# TYPE a untyped\na 1\n" ∧
    ("# HELP a ?\n# TYPE a untyped\na 1\n" : String) ≠ "# TYPE a untyped\na 1\n" := by
  refine ⟨rfl, by decide⟩

/-- C5 (amended): when the resolved descriptor's help text is empty and
the metric name has not been seen, the header block written is a
placeholder HELP line `# HELP {name} ?` followed by the `# TYPE` line —
the HELP line is emitted with `?` in place of the empty help, not
omitted (ser.rs 106–107). -/
theorem c5_help_placeholder (cfg : Config) (v : String) (st : SerState)
    (h : st.budget = none)
    (hm : memStr st.seen_metrics st.cur_path = false)
    (hh : (resolveDescriptor cfg st.cur_path).help = "") :
    (write_metric cfg v st).1.output =
      st.output ++
        ["# HELP ", fullMetricName cfg st.cur_path, " ", "?", "\n",
         "# TYPE ", fullMetricName cfg st.cur_path, " ",
         MetricType.asRef (resolveDescriptor cfg st.cur_path).metric_type, "\n"] ++
        sampleChunks (fullMetricName cfg st.cur_path) v
          (resolveDescriptor cfg st.cur_path).labels ∧
    (write_metric cfg v st).2 = none := by
  rw [write_metric_none cfg v st h]
  simp [hm, hh, headerChunks]

/-- C5 witness: the placeholder header at a concrete input, via
`c5_help_placeholder`. -/
theorem c5_help_placeholder_witness :
    (write_metric ⟨none, []⟩ "1" initState).1.output =
      [] ++
        ["# HELP ", fullMetricName ⟨none, []⟩ "", " ", "?", "\n",
         "# TYPE ", fullMetricName ⟨none, []⟩ "", " ",
         MetricType.asRef (resolveDescriptor ⟨none, []⟩ "").metric_type, "\n"] ++
        sampleChunks (fullMetricName ⟨none, []⟩ "") "1"
          (resolveDescriptor ⟨none, []⟩ "").labels ∧
    (write_metric ⟨none, []⟩ "1" initState).2 = none :=
  c5_help_placeholder ⟨none, []⟩ "1" initState rfl rfl rfl

/-- C6: descriptor resolution follows exactly the order (1) exact match on
the bare path name, (2) when a namespace is set, exact match on the
namespaced name `{ns}_{name}`, (3) the default descriptor; in particular
arm (1) applies whenever a bare entry exists, so the bare entry wins even
when a namespaced entry also exists. -/
theorem c6_resolution_order (cfg : Config) (name : String) :
    (∀ d, lookupMeta cfg.metadata name = some d → resolveDescriptor cfg name = d) ∧
    (∀ s d, lookupMeta cfg.metadata name = none → cfg.nspace = some s →
        lookupMeta cfg.metadata (s ++ "_" ++ name) = some d →
        resolveDescriptor cfg name = d) ∧
    (lookupMeta cfg.metadata name = none →
        lookupMeta cfg.metadata (fullMetricName cfg name) = none →
        resolveDescriptor cfg name = default_desc) := by
  refine ⟨fun d hd => by simp [resolveDescriptor, hd], fun s d h1 h2 h3 => ?_,
    fun h1 h2 => ?_⟩
  · simp [resolveDescriptor, h1, h2, fullMetricName, h3]
  · rcases hs : cfg.nspace with _ | s
    · simp [resolveDescriptor, h1, hs]
    · rw [fullMetricName, hs] at h2
      simp [resolveDescriptor, h1, hs, fullMetricName, h2]

/-- C6 witness: all three arms at concrete tables, via
`c6_resolution_order`; the first conjunct shows the bare entry winning
over a coexisting namespaced entry. -/
theorem c6_resolution_order_witness :
    resolveDescriptor
        ⟨some "my", [("e", { help := "bare" }), ("my_e", { help := "namespaced" })]⟩
        "e" = { help := "bare" } ∧
    resolveDescriptor ⟨some "my", [("my_x", { help := "nsd" })]⟩ "x" =
      { help := "nsd" } ∧
    resolveDescriptor ⟨some "my", []⟩ "z" = default_desc := by
  refine ⟨(c6_resolution_order _ "e").1 _ (by decide),
    (c6_resolution_order _ "x").2.1 "my" _ (by decide) rfl (by decide),
    (c6_resolution_order _ "z").2.2 (by decide) (by decide)⟩

/-- C7: within one encode call the `# HELP`/`# TYPE` header block for a
metric name is emitted exactly once — the header-writing branch runs one
time for every bare path name the traversal reaches (those in the final
`seen_metrics`), and never again on repeated occurrences; since the code
applies no rename, the published name is the injective namespacing of the
bare name, and because resolution is a pure function of the name and the
read-only table, the unique header is the one built from the descriptor
resolved at the first occurrence. -/
theorem c7_header_once (cfg : Config) (v : Value) (name : String) :
    countOcc (runEncode cfg v).1.headers_emitted (fullMetricName cfg name) =
      if memStr (runEncode cfg v).1.seen_metrics name then 1 else 0 := by
  have hinit : TraceInv cfg initState := by
    intro n
    simp [initState, countOcc, memStr]
  have h := (serializeValue_trace cfg v initState rfl hinit).1
  exact h name

/-- C8 (code_bug evidence): the emitter writes header and sample lines
inline in traversal order — for the three-field record
`{a_b: 1, c: 2, a: {b: 3}}` the output has no blank separator line
between families, and the second `a_b` sample appears after the `c`
block rather than grouped under the `a_b` header. -/
theorem c8_no_separator_no_grouping :
    to_prometheus_text ⟨none, []⟩
        (.vStruct (.cons "a_b" (.vU64 1)
          (.cons "c" (.vU64 2)
            (.cons "a" (.vStruct (.cons "b" (.vU64 3) .nil)) .nil)))) =
      .ok "# HELP a_b ?\n# TYPE a_b untyped\na_b 1\n# HELP c ?\n# TYPE c untyped\nc 2\na_b 3\n" :=
  rfl

/-- C9 counterexample: with a sink that fails on the first write, the
struct-field serialization of `{f: 1}` returns the write error with the
path prefix still extended to `f` — the restore on the error exit path
does not happen, refuting the claimed restore-on-every-exit-path. -/
theorem c9_counterexample :
    (write_prometheus_text ⟨none, []⟩
        (.vStruct (.cons "f" (.vU64 1) .nil)) (some 0)).2 = some .write ∧
    (write_prometheus_text ⟨none, []⟩
        (.vStruct (.cons "f" (.vU64 1) .nil)) (some 0)).1.cur_path = "f" ∧
    ("f" : String) ≠ "" := by
  refine ⟨rfl, rfl, by decide⟩

/-- C9 (amended): the path prefix is extended on entry to each struct
field and restored on every successful exit — whenever field-wise
serialization returns without error, the final prefix equals the prefix
on entry; on an error exit the prefix is left extended, but the error
aborts the whole encode call, so sibling fields are never visited with a
corrupted prefix. -/
theorem c9_restore_on_ok (cfg : Config) (fs : FieldList) (st : SerState)
    (h : (serializeFields cfg fs st).2 = none) :
    (serializeFields cfg fs st).1.cur_path = st.cur_path :=
  serializeFields_path cfg fs st h

/-- C9 witness: successful serialization of `{f: 1}` from the initial
state restores the empty prefix, via `c9_restore_on_ok`. -/
theorem c9_restore_on_ok_witness :
    (serializeFields ⟨none, []⟩ (.cons "f" (.vU64 1) .nil) initState).2 = none ∧
    (serializeFields ⟨none, []⟩ (.cons "f" (.vU64 1) .nil) initState).1.cur_path = "" :=
  ⟨rfl, c9_restore_on_ok ⟨none, []⟩ (.cons "f" (.vU64 1) .nil) initState rfl⟩

/-- C10: encoding a bare top-level numeric scalar writes its sample with
the current path still empty, so the published metric name is the
namespace followed by a bare underscore (`my_`) when a namespace is set,
and the empty string — a sample line beginning with a space — when no
namespace is set. -/
theorem c10_toplevel_scalar :
    (∀ (ns : Option String) (meta : List (String × MetricDescriptor)) (n : Nat),
        (runEncode ⟨ns, meta⟩ (.vU64 n)).1.samples_emitted =
          [(fullMetricName ⟨ns, meta⟩ "", Nat.repr n)]) ∧
    (∀ (s : String) (meta : List (String × MetricDescriptor)),
        fullMetricName ⟨some s, meta⟩ "" = s ++ "_") ∧
    to_prometheus_text ⟨some "my", []⟩ (.vU64 5) =
      .ok "# HELP my_ ?\n# TYPE my_ untyped\nmy_ 5\n" ∧
    to_prometheus_text ⟨none, []⟩ (.vU64 5) =
      .ok "# HELP  ?\n# TYPE  untyped\n 5\n" := by
  refine ⟨?_, ?_, rfl, rfl⟩
  · intro ns meta n
    have h := write_metric_none ⟨ns, meta⟩ (Nat.repr n) initState rfl
    show (write_metric ⟨ns, meta⟩ (Nat.repr n) initState).1.samples_emitted = _
    rw [h]
    simp [initState]
  · intro s meta
    simp [fullMetricName]
